import Mathlib

/-!
Shallow embedding of the Wizard-of-Oz relay (src/app.py) and verification of
the frozen claims about it.

Modelling conventions:
  - Python dict payloads are modelled as structures whose fields are
    `Option String` (a missing key is `none`); `dict.get k` with no default
    is the `Option` itself, `dict.get k d` is `Option.getD`, and the Python
    truthiness idiom `x.get(k) or d` is `pyOr`.
  - The arbitrary `payload` value of a trigger_action is modelled by the
    string produced by Python `str(...)` applied to it.
  - A handler is embedded as the ordered list of its externally visible
    effects (`Action`): audit-log appends and socket emissions, in program
    order.  Emission targets mirror flask_socketio: a plain `emit` goes to
    the sender, `broadcast=True` to every connected client, `room=...` to
    the members of that room.
  - The audit-log file is an `Option String` (missing file is `none`);
    `log_row` is the file-state transformer of the Python function of the
    same name.
  - Server timestamps (datetime.utcnow().isoformat() + "Z") are passed to
    each handler as an explicit parameter, assigned once at receipt, as in
    the source.
-/

namespace Woz

/-- The six ASCII whitespace characters stripped by Python str.strip()
(the model restricts Python whitespace to ASCII). -/
def pySpace (c : Char) : Bool :=
  c == ' ' || c == '\t' || c == '\n' || c == '\r' || c == Char.ofNat 11 || c == Char.ofNat 12

/-- Python str.strip(): drop whitespace from both ends. -/
def pyStrip (s : String) : String :=
  String.mk (((s.data.dropWhile pySpace).reverse.dropWhile pySpace).reverse)

/-- Python f-string interpolation of a value that may be None:
str(None) is the four-letter string None. -/
def fstr : Option String → String
  | none => "None"
  | some s => s

/-- The Python idiom `d.get(k) or default`: None and the empty string
are falsy, any other string is returned as is. -/
def pyOr : Option String → String → String
  | none, d => d
  | some s, d => if s = "" then d else s

/-- Quote-wrap a free-text CSV field, exactly as the f-strings in app.py do
(no escaping of embedded quotes). -/
def q (s : String) : String := "\"" ++ s ++ "\""

/-- Join CSV fields with commas, mirroring the f-string row layouts. -/
def commaJoin : List String → String
  | [] => ""
  | [f] => f
  | f :: g :: fs => f ++ ("," ++ commaJoin (g :: fs))

/-- The `trigger_action` event dict:
type, id, payload, note keys, each possibly absent. -/
structure TriggerData where
  type : Option String
  id : Option String
  payload : Option String
  note : Option String
  deriving DecidableEq

/-- The `participant_ack` event dict. -/
structure AckData where
  id : Option String
  response : Option String
  note : Option String
  deriving DecidableEq

/-- The `participant_input` event dict: runId, id, type, value, clientTs. -/
structure InputData where
  runId : Option String
  id : Option String
  type : Option String
  value : Option String
  clientTs : Option String
  deriving DecidableEq

/-- The `participant_confirm` event dict: id, response, note. -/
structure ConfirmData where
  id : Option String
  response : Option String
  note : Option String
  deriving DecidableEq

/-- Payload of an outbound socket emission, one constructor per dict literal
appearing in app.py. -/
inductive Msg where
  | actionMsg (d : TriggerData)
  | ackMsg (status : String) (id : Option String)
  | statusMsg (msg sid : String)
  | inputFwd (runId id type value clientTs serverTs : String)
  | inputAck (status id serverTs : String)
  | confirmFwd (id type value serverTs : String)
  deriving DecidableEq

/-- Delivery target of an emission, mirroring flask_socketio:
plain emit (to the sender), broadcast=True, or room=... . -/
inductive Target where
  | sender
  | broadcast
  | room (name : String)
  deriving DecidableEq

/-- One outbound socket emission: event name, target, payload. -/
structure Emission where
  event : String
  target : Target
  msg : Msg
  deriving DecidableEq

/-- One externally visible effect of a handler, in program order. -/
inductive Action where
  | log (row : String)
  | emit (e : Emission)
  deriving DecidableEq

/-- The fixed header written when the log file is created (with trailing
newline, as in app.py). -/
def header : String :=
  "timestamp,action_type,action_id,description,expected_effect,participant_response,observer_note\n"

/-- The header as a line (no trailing newline). -/
def headerLine : String :=
  "timestamp,action_type,action_id,description,expected_effect,participant_response,observer_note"

/-- log_row of app.py as a file-state transformer: if the file does not
exist it is first created holding the header, then row plus a newline is
appended. -/
def log_row (file : Option String) (row : String) : String :=
  match file with
  | none => header ++ (row ++ "\n")
  | some content => content ++ (row ++ "\n")

/-- Iterate log_row over a sequence of rows. -/
def logRowsFrom (file : Option String) (rows : List String) : Option String :=
  rows.foldl (fun s r => some (log_row s r)) file

/-- Handler of trigger_action.  Source row:
timestamp, data.get type, data.get id, quoted str of payload (default empty),
quoted note (default empty), empty, quoted empty; then a broadcast of the
unmodified data as an action event and an ack to the sender. -/
def handle_trigger (timestamp : String) (data : TriggerData) : List Action :=
  let desc := data.payload.getD ""
  let note := data.note.getD ""
  let row := commaJoin [timestamp, fstr data.type, fstr data.id, q desc, q note, "", q ""]
  [Action.log (pyStrip row),
   Action.emit ⟨"action", Target.broadcast, Msg.actionMsg data⟩,
   Action.emit ⟨"ack", Target.sender, Msg.ackMsg "sent" data.id⟩]

/-- Handler of participant_ack: log only, no emission. -/
def on_participant_ack (timestamp : String) (data : AckData) : List Action :=
  let row := commaJoin [timestamp, "ack", fstr data.id, q "participant ack", q "",
    data.response.getD "", q (data.note.getD "")]
  [Action.log (pyStrip row)]

/-- Handler of participant_input: normalize fields with or-defaults, log,
forward to the wizard room, acknowledge to the sender, all carrying the
single server timestamp. -/
def on_participant_input (server_ts : String) (payload : InputData) : List Action :=
  let run_id := pyOr payload.runId ""
  let pid := pyOr payload.id ""
  let ptype := pyOr payload.type "participant_input"
  let value := pyOr payload.value ""
  let client_ts := pyOr payload.clientTs ""
  let desc := "run:" ++ run_id ++ ";clientTs:" ++ client_ts
  let row := commaJoin [server_ts, "participant_input", pid, q desc, q "", value,
    q ("runId:" ++ run_id ++ ";clientTs:" ++ client_ts)]
  [Action.log (pyStrip row),
   Action.emit ⟨"participant_input", Target.room "wizard",
     Msg.inputFwd run_id pid ptype value client_ts server_ts⟩,
   Action.emit ⟨"participant_input_ack", Target.sender,
     Msg.inputAck "received" pid server_ts⟩]

/-- Handler of participant_confirm: id defaults to the string confirm,
response to empty; log, forward to the wizard room; no reply to the
sender. -/
def on_participant_confirm (timestamp : String) (data : ConfirmData) : List Action :=
  let pid := pyOr data.id "confirm"
  let response := pyOr data.response ""
  let note := data.note.getD ""
  let row := commaJoin [timestamp, "participant_confirm", pid,
    q "participant confirmed hearing", q "", response, q note]
  [Action.log (pyStrip row),
   Action.emit ⟨"participant_input", Target.room "wizard",
     Msg.confirmFwd pid "confirm" response timestamp⟩]

/-- Connection/room state: the connected sids and the members of the
wizard room. -/
structure Registry where
  connected : List String
  wizard : List String
  deriving DecidableEq

/-- Modelled from the spec: joinGroup (flask_socketio.join_room) is provided
by the external transport library and is not under src/; per the spec it
adds the connection to the named broadcast group with set semantics and
fails if the connection no longer exists. -/
def join_room (st : Registry) (sid : String) : Except String Registry :=
  if sid ∈ st.connected then
    Except.ok { connected := st.connected,
                wizard := if sid ∈ st.wizard then st.wizard else sid :: st.wizard }
  else
    Except.error "connection no longer exists"

/-- Handler of join_wizard: try to join the wizard room and acknowledge;
any error is caught (printed) and the handler returns normally with no
emission and the state unchanged. -/
def on_join_wizard (st : Registry) (sid : String) : Registry × List Action :=
  match join_room st sid with
  | Except.ok st2 =>
      (st2, [Action.emit ⟨"status", Target.sender, Msg.statusMsg "joined_wizard" sid⟩])
  | Except.error _ => (st, [])

/-- Modelled from the spec: delivery semantics of the external transport.
A broadcast reaches every currently connected client, a room emission the
members of the room, a plain emission the sender. -/
def audienceOf (t : Target) (sender : String) (connected : List String)
    (rooms : String → List String) : List String :=
  match t with
  | Target.sender => [sender]
  | Target.broadcast => connected
  | Target.room r => rooms r

/-- Is this effect an audit-log append? -/
def isLogAction : Action → Bool
  | Action.log _ => true
  | Action.emit _ => false

/-- The trace starts with exactly one log append, followed only by
emissions. -/
def auditFirst : List Action → Bool
  | Action.log _ :: rest => rest.all (fun a => !isLogAction a)
  | _ => false

/-- The effects that actually occur.  When logOk is false the append raises
(storage unavailable); app.py has no try/except around log_row, so the
uncaught exception aborts the handler: only the actions strictly before the
append occur. -/
def performedActions (logOk : Bool) (acts : List Action) : List Action :=
  if logOk then acts else acts.takeWhile (fun a => !isLogAction a)

/-- The emissions of a trace. -/
def emitsOf (acts : List Action) : List Action := acts.filter (fun a => !isLogAction a)

/-- The first logged row of a trace, if any. -/
def firstLogRow : List Action → Option String
  | [] => none
  | Action.log r :: _ => some r
  | Action.emit _ :: rest => firstLogRow rest

/-- Is this effect a direct reply to the sender? -/
def isSenderEmit : Action → Bool
  | Action.emit ⟨_, Target.sender, _⟩ => true
  | _ => false

/-- Split a character list into lines: a trailing newline closes the last
line without starting an empty one. -/
def linesCh : List Char → List (List Char)
  | [] => []
  | c :: cs =>
    if c = '\n' then [] :: linesCh cs
    else
      match linesCh cs with
      | [] => [[c]]
      | l :: ls => (c :: l) :: ls

/-- The lines of a file content. -/
def linesOf (s : String) : List String := (linesCh s.data).map String.mk

/-- The string contains no newline. -/
def noNL (s : String) : Bool := s.data.all (fun c => c != '\n')

/-- Join rows into a newline-terminated file content. -/
def joinRows : List String → String
  | [] => ""
  | r :: rs => r ++ ("\n" ++ joinRows rs)

/-- Split a character list on a separator; used to read the CSV columns of
concrete rows. -/
def splitCh (sep : Char) : List Char → List (List Char)
  | [] => [[]]
  | c :: cs =>
    if c = sep then [] :: splitCh sep cs
    else
      match splitCh sep cs with
      | [] => [[c]]
      | l :: ls => (c :: l) :: ls

/-- The comma-separated columns of a row. -/
def fieldsOf (s : String) : List String := (splitCh ',' s.data).map String.mk

/-- The string is nonempty and starts with a non-whitespace character
(every real server timestamp does: it starts with a digit). -/
def tsOk (s : String) : Bool :=
  match s.data with
  | [] => false
  | c :: _ => !pySpace c

/-- The double-quote character. -/
def dq : Char := Char.ofNat 34

/-- A fixed sample server timestamp used in witnesses and counterexamples. -/
def ts0 : String := "2025-01-01T00:00:00.000Z"

/-! Helper lemmas about strings, stripping and lines. -/

theorem strAppend_assoc (a b c : String) : a ++ b ++ c = a ++ (b ++ c) :=
  String.ext (by simp [String.data_append, List.append_assoc])

theorem strAppend_empty (a : String) : a ++ "" = a :=
  String.ext (by simp [String.data_append])

theorem dropWhile_eq_self_of_head (p : Char → Bool) (l : List Char)
    (h : ∀ c, l.head? = some c → p c = false) : l.dropWhile p = l := by
  cases l with
  | nil => rfl
  | cons a as => simp [List.dropWhile_cons, h a rfl]

theorem pyStrip_eq_self (s : String)
    (h1 : ∀ c, s.data.head? = some c → pySpace c = false)
    (h2 : ∀ c, s.data.getLast? = some c → pySpace c = false) : pyStrip s = s := by
  unfold pyStrip
  rw [dropWhile_eq_self_of_head _ _ h1]
  rw [dropWhile_eq_self_of_head _ _ (fun c hc => h2 c (by rwa [List.head?_reverse] at hc))]
  rw [List.reverse_reverse]

theorem endsQ_q (x : String) : (q x).data.getLast? = some dq := by
  show ((("\"" ++ x) ++ "\"").data).getLast? = some dq
  rw [String.data_append]
  exact List.getLast?_append_of_ne_nil _ (by decide)

theorem endsQ_append (s t : String) (h : t.data.getLast? = some dq) :
    (s ++ t).data.getLast? = some dq := by
  rw [String.data_append]
  rw [List.getLast?_append_of_ne_nil _ (fun he => by rw [he] at h; simp at h)]
  exact h

theorem endsQ_commaJoin_cons (f g : String) (gs : List String)
    (h : (commaJoin (g :: gs)).data.getLast? = some dq) :
    (commaJoin (f :: g :: gs)).data.getLast? = some dq := by
  show ((f ++ ("," ++ commaJoin (g :: gs))).data).getLast? = some dq
  exact endsQ_append _ _ (endsQ_append _ _ h)

theorem endsQ_commaJoin_last (z : String) : (commaJoin [q z]).data.getLast? = some dq :=
  endsQ_q z

theorem pyStrip_row (ts r : String) (rs : List String) (hts : tsOk ts = true)
    (hq : (commaJoin (ts :: r :: rs)).data.getLast? = some dq) :
    pyStrip (commaJoin (ts :: r :: rs)) = commaJoin (ts :: r :: rs) := by
  apply pyStrip_eq_self
  · intro c hc
    have hcj : commaJoin (ts :: r :: rs) = ts ++ ("," ++ commaJoin (r :: rs)) := rfl
    rw [hcj, String.data_append] at hc
    unfold tsOk at hts
    cases hdata : ts.data with
    | nil => rw [hdata] at hts; simp at hts
    | cons c0 cs =>
      rw [hdata] at hts hc
      simp only [List.cons_append, List.head?_cons, Option.some.injEq] at hc
      simp only [Bool.not_eq_true'] at hts
      rwa [← hc]
  · intro c hc
    rw [hq] at hc
    cases hc
    decide

theorem handle_trigger_def (ts : String) (d : TriggerData) (h : tsOk ts = true) :
    handle_trigger ts d =
      [Action.log (commaJoin [ts, fstr d.type, fstr d.id, q (d.payload.getD ""),
         q (d.note.getD ""), "", q ""]),
       Action.emit ⟨"action", Target.broadcast, Msg.actionMsg d⟩,
       Action.emit ⟨"ack", Target.sender, Msg.ackMsg "sent" d.id⟩] := by
  have hq : (commaJoin [ts, fstr d.type, fstr d.id, q (d.payload.getD ""),
      q (d.note.getD ""), "", q ""]).data.getLast? = some dq := by
    repeat apply endsQ_commaJoin_cons
    exact endsQ_commaJoin_last _
  have hs := pyStrip_row ts (fstr d.type) [fstr d.id, q (d.payload.getD ""),
    q (d.note.getD ""), "", q ""] h hq
  simp only [handle_trigger, hs]

theorem on_participant_ack_def (ts : String) (d : AckData) (h : tsOk ts = true) :
    on_participant_ack ts d =
      [Action.log (commaJoin [ts, "ack", fstr d.id, q "participant ack", q "",
         d.response.getD "", q (d.note.getD "")])] := by
  have hq : (commaJoin [ts, "ack", fstr d.id, q "participant ack", q "",
      d.response.getD "", q (d.note.getD "")]).data.getLast? = some dq := by
    repeat apply endsQ_commaJoin_cons
    exact endsQ_commaJoin_last _
  have hs := pyStrip_row ts "ack" [fstr d.id, q "participant ack", q "",
    d.response.getD "", q (d.note.getD "")] h hq
  simp only [on_participant_ack, hs]

theorem on_participant_input_def (ts : String) (p : InputData) (h : tsOk ts = true) :
    on_participant_input ts p =
      [Action.log (commaJoin [ts, "participant_input", pyOr p.id "",
         q ("run:" ++ pyOr p.runId "" ++ ";clientTs:" ++ pyOr p.clientTs ""), q "",
         pyOr p.value "",
         q ("runId:" ++ pyOr p.runId "" ++ ";clientTs:" ++ pyOr p.clientTs "")]),
       Action.emit ⟨"participant_input", Target.room "wizard",
         Msg.inputFwd (pyOr p.runId "") (pyOr p.id "") (pyOr p.type "participant_input")
           (pyOr p.value "") (pyOr p.clientTs "") ts⟩,
       Action.emit ⟨"participant_input_ack", Target.sender,
         Msg.inputAck "received" (pyOr p.id "") ts⟩] := by
  have hq : (commaJoin [ts, "participant_input", pyOr p.id "",
      q ("run:" ++ pyOr p.runId "" ++ ";clientTs:" ++ pyOr p.clientTs ""), q "",
      pyOr p.value "",
      q ("runId:" ++ pyOr p.runId "" ++ ";clientTs:" ++ pyOr p.clientTs "")]).data.getLast?
      = some dq := by
    repeat apply endsQ_commaJoin_cons
    exact endsQ_commaJoin_last _
  have hs := pyStrip_row ts "participant_input" [pyOr p.id "",
    q ("run:" ++ pyOr p.runId "" ++ ";clientTs:" ++ pyOr p.clientTs ""), q "",
    pyOr p.value "",
    q ("runId:" ++ pyOr p.runId "" ++ ";clientTs:" ++ pyOr p.clientTs "")] h hq
  simp only [on_participant_input, hs]

theorem on_participant_confirm_def (ts : String) (d : ConfirmData) (h : tsOk ts = true) :
    on_participant_confirm ts d =
      [Action.log (commaJoin [ts, "participant_confirm", pyOr d.id "confirm",
         q "participant confirmed hearing", q "", pyOr d.response "",
         q (d.note.getD "")]),
       Action.emit ⟨"participant_input", Target.room "wizard",
         Msg.confirmFwd (pyOr d.id "confirm") "confirm" (pyOr d.response "") ts⟩] := by
  have hq : (commaJoin [ts, "participant_confirm", pyOr d.id "confirm",
      q "participant confirmed hearing", q "", pyOr d.response "",
      q (d.note.getD "")]).data.getLast? = some dq := by
    repeat apply endsQ_commaJoin_cons
    exact endsQ_commaJoin_last _
  have hs := pyStrip_row ts "participant_confirm" [pyOr d.id "confirm",
    q "participant confirmed hearing", q "", pyOr d.response "",
    q (d.note.getD "")] h hq
  simp only [on_participant_confirm, hs]

theorem pyOr_some_empty_default (s : String) : pyOr (some s) "" = s := by
  unfold pyOr
  by_cases h : s = "" <;> simp [h]

theorem pyOr_some_of_ne (s d : String) (h : s ≠ "") : pyOr (some s) d = s := by
  simp [pyOr, h]

/-- C1: for every inbound event handled by the relay (trigger_action,
participant_ack, participant_input, participant_confirm), the trace of
effects starts with exactly one audit-log append, performed before any
forwarding emit or direct reply. -/
theorem C1_audit_once_before_forward (ts : String) (t : TriggerData) (a : AckData)
    (i : InputData) (c : ConfirmData) :
    auditFirst (handle_trigger ts t) = true ∧
    auditFirst (on_participant_ack ts a) = true ∧
    auditFirst (on_participant_input ts i) = true ∧
    auditFirst (on_participant_confirm ts c) = true :=
  ⟨rfl, rfl, rfl, rfl⟩

/-- C2 counterexample: when the audit-log append raises, nothing is
performed in handle_trigger (the append is its first action and app.py has
no try/except around log_row), although the handler would otherwise emit
the action broadcast and the ack reply; so the event is neither forwarded
nor acknowledged, contradicting the claim. -/
theorem C2_counterexample :
    performedActions false
        (handle_trigger ts0 ⟨some "audio", some "a1", some "vol5", some ""⟩) = [] ∧
    emitsOf (handle_trigger ts0 ⟨some "audio", some "a1", some "vol5", some ""⟩) ≠ [] :=
  ⟨rfl, by decide⟩

/-- C2 amended: if the audit-log append fails, the uncaught exception
aborts the handler: no forwarding emit and no direct reply is performed
for any of the four inbound events. -/
theorem C2_log_failure_aborts (ts : String) (t : TriggerData) (a : AckData)
    (i : InputData) (c : ConfirmData) :
    performedActions false (handle_trigger ts t) = [] ∧
    performedActions false (on_participant_ack ts a) = [] ∧
    performedActions false (on_participant_input ts i) = [] ∧
    performedActions false (on_participant_confirm ts c) = [] :=
  ⟨rfl, rfl, rfl, rfl⟩

/-- C3 counterexample: a TriggerAction with note watch produces a row whose
column 5 (expectedEffect) is the quoted note and whose column 7
(observerNote) is the quoted empty string; so observerNote is not the note
(neither raw nor quoted) and expectedEffect is not empty, contradicting the
claim. -/
theorem C3_counterexample :
    fieldsOf ((firstLogRow (handle_trigger ts0
        ⟨some "audio", some "a1", some "vol5", some "watch"⟩)).getD "") =
      ["2025-01-01T00:00:00.000Z", "audio", "a1", "\"vol5\"", "\"watch\"", "", "\"\""] ∧
    ("\"\"" : String) ≠ "watch" ∧ ("\"\"" : String) ≠ "\"watch\"" ∧
    ("\"watch\"" : String) ≠ "" ∧ ("\"watch\"" : String) ≠ "\"\"" :=
  ⟨by decide, by decide, by decide, by decide, by decide⟩

/-- C3 amended: for every TriggerAction with note n present, the audit row
places the quote-wrapped note in column 5 (expectedEffect) and the quoted
empty string in column 7 (observerNote); the description column is derived
from the payload. -/
theorem C3_note_lands_in_expected_effect (ts : String) (d : TriggerData) (n : String)
    (hn : d.note = some n) (hts : tsOk ts = true) :
    firstLogRow (handle_trigger ts d) =
      some (commaJoin [ts, fstr d.type, fstr d.id, q (d.payload.getD ""), q n, "", q ""]) := by
  rw [handle_trigger_def ts d hts, hn]
  rfl

/-- C3 witness at a concrete trigger event. -/
theorem C3_witness :
    (⟨some "audio", some "a1", some "vol5", some "watch"⟩ : TriggerData).note = some "watch" ∧
    tsOk ts0 = true ∧
    firstLogRow (handle_trigger ts0 ⟨some "audio", some "a1", some "vol5", some "watch"⟩) =
      some (commaJoin [ts0, fstr (some "audio"), fstr (some "a1"), q "vol5", q "watch", "", q ""]) :=
  ⟨rfl, by decide,
    C3_note_lands_in_expected_effect ts0 ⟨some "audio", some "a1", some "vol5", some "watch"⟩
      "watch" rfl (by decide)⟩

/-- C4 counterexample: a ParticipantConfirm with the id key absent is logged
and forwarded with the literal id confirm, not with the empty string the
claim requires. -/
theorem C4_counterexample :
    (⟨none, some "confirmed", none⟩ : ConfirmData).id = none ∧
    on_participant_confirm ts0 ⟨none, some "confirmed", none⟩ =
      [Action.log "2025-01-01T00:00:00.000Z,participant_confirm,confirm,\"participant confirmed hearing\",\"\",confirmed,\"\"",
       Action.emit ⟨"participant_input", Target.room "wizard",
         Msg.confirmFwd "confirm" "confirm" "confirmed" ts0⟩] ∧
    ("confirm" : String) ≠ "" :=
  ⟨rfl, by decide, by decide⟩

/-- C4 amended: absent optional fields are replaced by the empty string in
the audit record and the forwarded payload, with two exceptions taken from
the code: a ParticipantConfirm with no id gets the literal id confirm, and a
ParticipantInput with no kind gets the literal kind participant_input. -/
theorem C4_absent_field_defaults (ts : String) (d : ConfirmData) (p : InputData)
    (hts : tsOk ts = true)
    (hd1 : d.id = none) (hd2 : d.response = none) (hd3 : d.note = none)
    (hp1 : p.runId = none) (hp2 : p.id = none) (hp3 : p.type = none)
    (hp4 : p.value = none) (hp5 : p.clientTs = none) :
    on_participant_confirm ts d =
      [Action.log (commaJoin [ts, "participant_confirm", "confirm",
         q "participant confirmed hearing", q "", "", q ""]),
       Action.emit ⟨"participant_input", Target.room "wizard",
         Msg.confirmFwd "confirm" "confirm" "" ts⟩] ∧
    on_participant_input ts p =
      [Action.log (commaJoin [ts, "participant_input", "",
         q ("run:" ++ "" ++ ";clientTs:" ++ ""), q "", "",
         q ("runId:" ++ "" ++ ";clientTs:" ++ "")]),
       Action.emit ⟨"participant_input", Target.room "wizard",
         Msg.inputFwd "" "" "participant_input" "" "" ts⟩,
       Action.emit ⟨"participant_input_ack", Target.sender,
         Msg.inputAck "received" "" ts⟩] := by
  constructor
  · rw [on_participant_confirm_def ts d hts, hd1, hd2, hd3]
    rfl
  · rw [on_participant_input_def ts p hts, hp1, hp2, hp3, hp4, hp5]
    rfl

/-- C4 witness at concrete all-absent events. -/
theorem C4_witness :
    tsOk ts0 = true ∧
    (on_participant_confirm ts0 ⟨none, none, none⟩ =
      [Action.log (commaJoin [ts0, "participant_confirm", "confirm",
         q "participant confirmed hearing", q "", "", q ""]),
       Action.emit ⟨"participant_input", Target.room "wizard",
         Msg.confirmFwd "confirm" "confirm" "" ts0⟩] ∧
    on_participant_input ts0 ⟨none, none, none, none, none⟩ =
      [Action.log (commaJoin [ts0, "participant_input", "",
         q ("run:" ++ "" ++ ";clientTs:" ++ ""), q "", "",
         q ("runId:" ++ "" ++ ";clientTs:" ++ "")]),
       Action.emit ⟨"participant_input", Target.room "wizard",
         Msg.inputFwd "" "" "participant_input" "" "" ts0⟩,
       Action.emit ⟨"participant_input_ack", Target.sender,
         Msg.inputAck "received" "" ts0⟩]) :=
  ⟨by decide,
    C4_absent_field_defaults ts0 ⟨none, none, none⟩ ⟨none, none, none, none, none⟩
      (by decide) rfl rfl rfl rfl rfl rfl rfl rfl⟩

/-- C5: the participant_input direct reply carries the same id the sender
submitted, and the server timestamp in the wizard-room forward is the same
timestamp carried in the reply (assigned once at receipt). -/
theorem C5_reply_id_and_single_ts (ts : String) (p : InputData) (i : String)
    (hid : p.id = some i) :
    on_participant_input ts p =
      [Action.log (pyStrip (commaJoin [ts, "participant_input", i,
         q ("run:" ++ pyOr p.runId "" ++ ";clientTs:" ++ pyOr p.clientTs ""), q "",
         pyOr p.value "",
         q ("runId:" ++ pyOr p.runId "" ++ ";clientTs:" ++ pyOr p.clientTs "")])),
       Action.emit ⟨"participant_input", Target.room "wizard",
         Msg.inputFwd (pyOr p.runId "") i (pyOr p.type "participant_input")
           (pyOr p.value "") (pyOr p.clientTs "") ts⟩,
       Action.emit ⟨"participant_input_ack", Target.sender,
         Msg.inputAck "received" i ts⟩] := by
  simp only [on_participant_input, hid, pyOr_some_empty_default]

/-- C5 witness at a concrete participant_input event. -/
theorem C5_witness :
    (⟨some "r1", some "q1", some "choice", some "A", some "t1"⟩ : InputData).id = some "q1" ∧
    on_participant_input ts0 ⟨some "r1", some "q1", some "choice", some "A", some "t1"⟩ =
      [Action.log (pyStrip (commaJoin [ts0, "participant_input", "q1",
         q ("run:" ++ pyOr (some "r1") "" ++ ";clientTs:" ++ pyOr (some "t1") ""), q "",
         pyOr (some "A") "",
         q ("runId:" ++ pyOr (some "r1") "" ++ ";clientTs:" ++ pyOr (some "t1") "")])),
       Action.emit ⟨"participant_input", Target.room "wizard",
         Msg.inputFwd (pyOr (some "r1") "") "q1" (pyOr (some "choice") "participant_input")
           (pyOr (some "A") "") (pyOr (some "t1") "") ts0⟩,
       Action.emit ⟨"participant_input_ack", Target.sender,
         Msg.inputAck "received" "q1" ts0⟩] :=
  ⟨rfl, C5_reply_id_and_single_ts ts0 ⟨some "r1", some "q1", some "choice", some "A", some "t1"⟩
    "q1" rfl⟩

/-- C6: a well-formed TriggerAction (kind and id present) appends exactly
one audit record with actionType the kind and actionId the id, broadcasts
the unmodified event data as an action event to every currently connected
client including the sender, and replies status sent with the id. -/
theorem C6_trigger_broadcast (ts k i : String) (d : TriggerData) (sender : String)
    (connected : List String) (rooms : String → List String)
    (hk : d.type = some k) (hi : d.id = some i) (hts : tsOk ts = true)
    (hmem : sender ∈ connected) :
    handle_trigger ts d =
      [Action.log (commaJoin [ts, k, i, q (d.payload.getD ""), q (d.note.getD ""), "", q ""]),
       Action.emit ⟨"action", Target.broadcast, Msg.actionMsg d⟩,
       Action.emit ⟨"ack", Target.sender, Msg.ackMsg "sent" (some i)⟩] ∧
    audienceOf Target.broadcast sender connected rooms = connected ∧
    sender ∈ audienceOf Target.broadcast sender connected rooms := by
  refine ⟨?_, rfl, hmem⟩
  rw [handle_trigger_def ts d hts, hk, hi]
  rfl

/-- C6 witness at a concrete trigger event with two connected clients. -/
theorem C6_witness :
    (⟨some "audio", some "overview_01", some "volume=5", some ""⟩ : TriggerData).type = some "audio" ∧
    (⟨some "audio", some "overview_01", some "volume=5", some ""⟩ : TriggerData).id = some "overview_01" ∧
    tsOk ts0 = true ∧ ("s1" : String) ∈ ["s1", "s2"] ∧
    (handle_trigger ts0 ⟨some "audio", some "overview_01", some "volume=5", some ""⟩ =
      [Action.log (commaJoin [ts0, "audio", "overview_01", q "volume=5", q "", "", q ""]),
       Action.emit ⟨"action", Target.broadcast,
         Msg.actionMsg ⟨some "audio", some "overview_01", some "volume=5", some ""⟩⟩,
       Action.emit ⟨"ack", Target.sender, Msg.ackMsg "sent" (some "overview_01")⟩] ∧
    audienceOf Target.broadcast "s1" ["s1", "s2"] (fun _ => []) = ["s1", "s2"] ∧
    ("s1" : String) ∈ audienceOf Target.broadcast "s1" ["s1", "s2"] (fun _ => [])) :=
  ⟨rfl, rfl, by decide, by decide,
    C6_trigger_broadcast ts0 "audio" "overview_01"
      ⟨some "audio", some "overview_01", some "volume=5", some ""⟩ "s1" ["s1", "s2"]
      (fun _ => []) rfl rfl (by decide) (by decide)⟩

/-- C7 counterexample: a ParticipantConfirm whose id is the empty string is
logged and forwarded with actionId confirm, not with the submitted id. -/
theorem C7_counterexample :
    (⟨some "", some "confirmed", none⟩ : ConfirmData).id = some "" ∧
    on_participant_confirm ts0 ⟨some "", some "confirmed", none⟩ =
      [Action.log "2025-01-01T00:00:00.000Z,participant_confirm,confirm,\"participant confirmed hearing\",\"\",confirmed,\"\"",
       Action.emit ⟨"participant_input", Target.room "wizard",
         Msg.confirmFwd "confirm" "confirm" "confirmed" ts0⟩] ∧
    ("confirm" : String) ≠ "" :=
  ⟨rfl, by decide, by decide⟩

/-- C7 amended: for every ParticipantConfirm carrying a nonempty id i and a
response r, exactly one audit row is appended with actionType
participant_confirm, actionId i and participantResponse r, one
participant_input message with id i, kind confirm, value r and the server
timestamp is forwarded to the wizard room only, and no direct reply is sent
to the sender; an empty (or missing) id is replaced by the literal id
confirm. -/
theorem C7_confirm_forward (ts i r : String) (d : ConfirmData)
    (hi : d.id = some i) (hne : i ≠ "") (hr : d.response = some r)
    (hts : tsOk ts = true) :
    on_participant_confirm ts d =
      [Action.log (commaJoin [ts, "participant_confirm", i,
         q "participant confirmed hearing", q "", r, q (d.note.getD "")]),
       Action.emit ⟨"participant_input", Target.room "wizard",
         Msg.confirmFwd i "confirm" r ts⟩] ∧
    (on_participant_confirm ts d).all (fun a => !isSenderEmit a) = true := by
  have h1 : on_participant_confirm ts d =
      [Action.log (commaJoin [ts, "participant_confirm", i,
         q "participant confirmed hearing", q "", r, q (d.note.getD "")]),
       Action.emit ⟨"participant_input", Target.room "wizard",
         Msg.confirmFwd i "confirm" r ts⟩] := by
    rw [on_participant_confirm_def ts d hts, hi, hr,
      pyOr_some_of_ne i "confirm" hne, pyOr_some_empty_default]
  exact ⟨h1, by rw [h1]; rfl⟩

/-- C7 witness at the scenario event confirm_hearing confirmed. -/
theorem C7_witness :
    (⟨some "confirm_hearing", some "confirmed", none⟩ : ConfirmData).id = some "confirm_hearing" ∧
    ("confirm_hearing" : String) ≠ "" ∧
    (⟨some "confirm_hearing", some "confirmed", none⟩ : ConfirmData).response = some "confirmed" ∧
    tsOk ts0 = true ∧
    (on_participant_confirm ts0 ⟨some "confirm_hearing", some "confirmed", none⟩ =
      [Action.log (commaJoin [ts0, "participant_confirm", "confirm_hearing",
         q "participant confirmed hearing", q "", "confirmed", q ""]),
       Action.emit ⟨"participant_input", Target.room "wizard",
         Msg.confirmFwd "confirm_hearing" "confirm" "confirmed" ts0⟩] ∧
    (on_participant_confirm ts0 ⟨some "confirm_hearing", some "confirmed", none⟩).all
      (fun a => !isSenderEmit a) = true) :=
  ⟨rfl, by decide, rfl, by decide,
    C7_confirm_forward ts0 "confirm_hearing" "confirmed"
      ⟨some "confirm_hearing", some "confirmed", none⟩ rfl (by decide) rfl (by decide)⟩

/-- C10: the description column of every participant_confirm audit row is
the fixed quoted text participant confirmed hearing, independent of the
event contents. -/
theorem C10_fixed_confirm_description (ts : String) (d : ConfirmData)
    (hts : tsOk ts = true) :
    firstLogRow (on_participant_confirm ts d) =
      some (commaJoin [ts, "participant_confirm", pyOr d.id "confirm",
        q "participant confirmed hearing", q "", pyOr d.response "",
        q (d.note.getD "")]) := by
  rw [on_participant_confirm_def ts d hts]
  rfl

theorem linesCh_append (a b : List Char) (h : ∀ c ∈ a, c ≠ '\n') :
    linesCh (a ++ '\n' :: b) = a :: linesCh b := by
  induction a with
  | nil => simp [linesCh]
  | cons c cs ih =>
    have hc : c ≠ '\n' := h c (List.mem_cons_self c cs)
    have ih2 := ih (fun d hd => h d (List.mem_cons_of_mem c hd))
    simp [linesCh, hc, ih2]

theorem linesOf_joinRows (ls : List String) (h : ∀ l ∈ ls, noNL l = true) :
    linesOf (joinRows ls) = ls := by
  induction ls with
  | nil => rfl
  | cons l rest ih =>
    have hl : ∀ c ∈ l.data, c ≠ '\n' := by
      have h2 := h l (List.mem_cons_self l rest)
      simpa only [noNL, List.all_eq_true, bne_iff_ne] using h2
    have ih2 := ih (fun x hx => h x (List.mem_cons_of_mem l hx))
    show (linesCh (l ++ ("\n" ++ joinRows rest)).data).map String.mk = l :: rest
    rw [String.data_append, String.data_append]
    rw [show ("\n" : String).data = ['\n'] from rfl]
    rw [List.singleton_append, linesCh_append l.data _ hl]
    rw [List.map_cons]
    exact congrArg (List.cons (String.mk l.data)) ih2

theorem logRowsFrom_some (rows : List String) : ∀ g : String,
    logRowsFrom (some g) rows = some (g ++ joinRows rows) := by
  induction rows with
  | nil =>
    intro g
    show some g = some (g ++ "")
    rw [strAppend_empty]
  | cons r rs ih =>
    intro g
    show logRowsFrom (some (log_row (some g) r)) rs = _
    rw [ih (log_row (some g) r)]
    show some ((g ++ (r ++ "\n")) ++ joinRows rs) = some (g ++ (r ++ ("\n" ++ joinRows rs)))
    rw [strAppend_assoc, strAppend_assoc]

/-- C8 counterexample: the claim fails on a reachable input.  A trigger
whose note is a newline-wrapped copy of the header line survives strip()
(which trims only the ends of the row), and one single append of the row
handle_trigger builds from it onto a missing file yields a file of four
lines in which the header line occurs twice: the append added more than
one line and introduced a second copy of the header. -/
theorem C8_counterexample :
    linesOf (log_row none ((firstLogRow (handle_trigger ts0
        ⟨some "audio", some "a1", some "v",
          some ("\n" ++ headerLine ++ "\n")⟩)).getD "")) =
      [headerLine, "2025-01-01T00:00:00.000Z,audio,a1,\"v\",\"", headerLine, "\",,\"\""] ∧
    (linesOf (log_row none ((firstLogRow (handle_trigger ts0
        ⟨some "audio", some "a1", some "v",
          some ("\n" ++ headerLine ++ "\n")⟩)).getD ""))).length = 4 ∧
    (linesOf (log_row none ((firstLogRow (handle_trigger ts0
        ⟨some "audio", some "a1", some "v",
          some ("\n" ++ headerLine ++ "\n")⟩)).getD ""))).count headerLine = 2 :=
  ⟨by decide, by decide, by decide⟩

/-- C8 amended: starting from a missing file, after any nonempty sequence of
appends of newline-free rows distinct from the header line, the file holds
the fixed header as its first line, then exactly one line per appended row,
and the header occurs exactly once; a row with embedded newlines (reachable,
since client-supplied free-text fields survive into the row and strip trims
only its ends) instead adds one line per newline-separated segment and can
introduce a second copy of the header. -/
theorem C8_header_then_one_line_per_append (rows : List String) (f : String)
    (hnl : rows.all noNL = true)
    (hnh : rows.all (fun r => r != headerLine) = true)
    (hf : logRowsFrom none rows = some f) :
    linesOf f = headerLine :: rows ∧
    (linesOf f).count headerLine = 1 ∧
    (linesOf f).length = rows.length + 1 := by
  cases rows with
  | nil => simp [logRowsFrom] at hf
  | cons r rs =>
    have hnl2 : ∀ x ∈ r :: rs, noNL x = true := by
      simpa only [List.all_eq_true] using hnl
    have hnh2 : ∀ x ∈ r :: rs, x ≠ headerLine := by
      simpa only [List.all_eq_true, bne_iff_ne] using hnh
    have hc : logRowsFrom none (r :: rs) = some ((header ++ (r ++ "\n")) ++ joinRows rs) := by
      show logRowsFrom (some (log_row none r)) rs = _
      exact logRowsFrom_some rs (log_row none r)
    rw [hc] at hf
    have hfe : f = (header ++ (r ++ "\n")) ++ joinRows rs := (Option.some.inj hf).symm
    have hjoin : (header ++ (r ++ "\n")) ++ joinRows rs = joinRows (headerLine :: r :: rs) := by
      show _ = headerLine ++ ("\n" ++ (r ++ ("\n" ++ joinRows rs)))
      rw [show header = headerLine ++ "\n" from rfl]
      rw [strAppend_assoc, strAppend_assoc, strAppend_assoc]
    have hlines : linesOf f = headerLine :: r :: rs := by
      rw [hfe, hjoin]
      apply linesOf_joinRows
      intro l hl
      cases List.mem_cons.mp hl with
      | inl he => rw [he]; decide
      | inr hm => exact hnl2 l hm
    refine ⟨hlines, ?_, ?_⟩
    · rw [hlines, List.count_cons_self,
        List.count_eq_zero.mpr (fun hmem => hnh2 headerLine hmem rfl)]
    · rw [hlines]
      simp

/-- C8 witness: two concrete appends onto a missing file. -/
theorem C8_witness :
    (["r1", "r2"] : List String).all noNL = true ∧
    (["r1", "r2"] : List String).all (fun r => r != headerLine) = true ∧
    logRowsFrom none ["r1", "r2"] =
      some "timestamp,action_type,action_id,description,expected_effect,participant_response,observer_note\nr1\nr2\n" ∧
    (linesOf "timestamp,action_type,action_id,description,expected_effect,participant_response,observer_note\nr1\nr2\n" =
        headerLine :: ["r1", "r2"] ∧
      (linesOf "timestamp,action_type,action_id,description,expected_effect,participant_response,observer_note\nr1\nr2\n").count
        headerLine = 1 ∧
      (linesOf "timestamp,action_type,action_id,description,expected_effect,participant_response,observer_note\nr1\nr2\n").length =
        (["r1", "r2"] : List String).length + 1) :=
  ⟨by decide, by decide, rfl,
    C8_header_then_one_line_per_append ["r1", "r2"]
      "timestamp,action_type,action_id,description,expected_effect,participant_response,observer_note\nr1\nr2\n"
      (by decide) (by decide) rfl⟩

/-- C9: joining the wizard group is idempotent (a second join by the same
connection leaves the state exactly as after the first, and the membership
grows by one only on the first call by a live connection), and a join
attempted by a defunct connection is caught: the handler returns normally
with the state unchanged and no emission. -/
theorem C9_join_idempotent (st : Registry) (sid : String)
    (h1 : sid ∈ st.connected) (h2 : sid ∉ st.wizard)
    (st2 : Registry) (sid2 : String) (h3 : sid2 ∉ st2.connected)
    (st3 : Registry) (sid3 : String) :
    (on_join_wizard st sid).1.wizard = sid :: st.wizard ∧
    (on_join_wizard st sid).1.wizard.length = st.wizard.length + 1 ∧
    (on_join_wizard (on_join_wizard st3 sid3).1 sid3).1 = (on_join_wizard st3 sid3).1 ∧
    on_join_wizard st2 sid2 = (st2, []) := by
  refine ⟨?_, ?_, ?_, ?_⟩
  · simp [on_join_wizard, join_room, h1, h2]
  · simp [on_join_wizard, join_room, h1, h2]
  · by_cases hc : sid3 ∈ st3.connected
    · by_cases hw : sid3 ∈ st3.wizard
      · simp [on_join_wizard, join_room, hc, hw]
      · simp [on_join_wizard, join_room, hc, hw]
    · simp [on_join_wizard, join_room, hc]
  · simp [on_join_wizard, join_room, h3]

/-- C9 witness: a fresh join, a repeated join, and a defunct connection. -/
theorem C9_witness :
    ("s1" : String) ∈ (⟨["s1"], []⟩ : Registry).connected ∧
    ("s1" : String) ∉ (⟨["s1"], []⟩ : Registry).wizard ∧
    ("zz" : String) ∉ (⟨["s1"], ["s1"]⟩ : Registry).connected ∧
    ((on_join_wizard ⟨["s1"], []⟩ "s1").1.wizard = "s1" :: ([] : List String) ∧
     (on_join_wizard ⟨["s1"], []⟩ "s1").1.wizard.length = ([] : List String).length + 1 ∧
     (on_join_wizard (on_join_wizard ⟨["s2"], []⟩ "s2").1 "s2").1 =
       (on_join_wizard ⟨["s2"], []⟩ "s2").1 ∧
     on_join_wizard ⟨["s1"], ["s1"]⟩ "zz" = (⟨["s1"], ["s1"]⟩, [])) :=
  ⟨by decide, by decide, by decide,
    C9_join_idempotent ⟨["s1"], []⟩ "s1" (by decide) (by decide)
      ⟨["s1"], ["s1"]⟩ "zz" (by decide) ⟨["s2"], []⟩ "s2"⟩

/-- C10 witness at a concrete confirm event. -/
theorem C10_witness :
    tsOk ts0 = true ∧
    firstLogRow (on_participant_confirm ts0 ⟨some "confirm_hearing", some "yes", some "n"⟩) =
      some (commaJoin [ts0, "participant_confirm", pyOr (some "confirm_hearing") "confirm",
        q "participant confirmed hearing", q "", pyOr (some "yes") "", q "n"]) :=
  ⟨by decide,
    C10_fixed_confirm_description ts0 ⟨some "confirm_hearing", some "yes", some "n"⟩ (by decide)⟩

end Woz
